import Mathlib

/-!
Verification development for the prompt-execution pipeline of the
`llm-cron-app` repository (TypeScript, `src/server/src/handlers/`).

The two entry points `executePrompt` (manual/scheduled, trigger `cron`) and
`webhookExecution` (inbound-webhook trigger) are shallowly embedded as pure
Lean functions.  External effects are made explicit:

* the prompt repository is a function `Nat → Option Prompt` (one `select`);
* the completion call's outcome and the outbound delivery call's outcome are
  inputs (`HttpOutcome`, `DeliveryOutcome`) describing what the outside world
  returned to the single `fetch` each handler performs;
* every outbound action the handler performs is recorded in an effect trace,
  so "no network call was attempted" and "no record was written" are
  statable;
* a thrown JS error is `Except.error`, a returned record is `Except.ok`.

Dynamic JSON values (`Record<string, any>` payloads, the parsed completion
response) are modelled by the `Json` type below; JavaScript's `String(v)`
coercion and truthiness tests are modelled by `jsToString` / `jsTruthy`.
Parsed-JSON objects are association lists in property order; `Object.entries`
enumeration order is the list order (own enumerable properties only, so the
webhook loop never sees inherited names).  Property *access* `data[key]`,
by contrast, walks the prototype chain: on a plain object it also finds the
`Object.prototype` members (`toString`, `constructor`, `__proto__`, …), so
`data[key] !== undefined` holds for those names even on `{}` — the manual
renderer's lookup models this (`protoProps` / `protoString`).

One boundary is stated as a hypothesis rather than modelled: the webhook
loop builds `new RegExp("{{" + key + "}}", 'g')` from raw payload keys.
Only for a key that is a nonempty word-character run containing a non-digit
(`litKey`) is that regex the literal-text matcher embedded here; an
all-digit key turns `{n}` into a quantifier, a metacharacter key matches
differently, and an ill-formed key (e.g. `"("`) makes the constructor throw
a SyntaxError outside the handler's `try`.  Every theorem about the webhook
variant's rendered output therefore assumes `litKey` for all payload keys.
-/

/-- The character `{` (written via its code point to keep string literals
brace-free). -/
def lbrace : Char := Char.ofNat 123

/-- The character `}`. -/
def rbrace : Char := Char.ofNat 125

/-- Dynamic JSON value: the shape of `Record<string, any>` data flowing
through the handlers (payloads, parsed completion responses).  Numbers are
modelled as integers; none of the verified claims depends on fractional
numeric values. -/
inductive Json where
  | null : Json
  | bool (b : Bool) : Json
  | num (n : Int) : Json
  | str (s : String) : Json
  | arr (xs : List Json) : Json
  | obj (fields : List (String × Json)) : Json

/-- JavaScript `String(v)` / template-literal coercion of a JSON value:
`null ↦ "null"`, booleans and numbers print, strings are themselves,
arrays join their elements with `,` (a `null` element joins as the empty
string), plain objects print as `[object Object]`. -/
def jsToString : Json → String
  | .null => "null"
  | .bool true => "true"
  | .bool false => "false"
  | .num n => toString n
  | .str s => s
  | .arr xs => String.intercalate "," (jsToStringElems xs)
  | .obj _ => "[object Object]"
where
  /-- Element-wise stringification used by `Array.prototype.join`. -/
  jsToStringElems : List Json → List String
    | [] => []
    | .null :: vs => "" :: jsToStringElems vs
    | v :: vs => jsToString v :: jsToStringElems vs

/-- JavaScript truthiness of a JSON value. -/
def jsTruthy : Json → Bool
  | .null => false
  | .bool b => b
  | .num n => n != 0
  | .str s => s != ""
  | .arr _ => true
  | .obj _ => true

/-- Property access `j[k]` on a JSON value: only objects yield properties
(first binding wins; parsed JSON has unique keys). -/
def jsField (j : Json) (k : String) : Option Json :=
  match j with
  | .obj fs => List.lookup k fs
  | _ => none

/-- Index access `j[0]` as used by `choices?.[0]`: arrays give their head,
objects their `"0"` property, strings their first character. -/
def jsIndex0 : Json → Option Json
  | .arr xs => xs.head?
  | .obj fs => List.lookup "0" fs
  | .str s =>
    match s.data with
    | [] => none
    | c :: _ => some (.str (String.mk [c]))
  | _ => none

/-- A `\w` word character: ASCII letter, digit or underscore. -/
def isWordChar (c : Char) : Bool :=
  c.isAlpha || c.isDigit || c = '_'

/-- The property names every plain JavaScript object inherits from
`Object.prototype`: `data[key] !== undefined` holds for these even when
`key` is not an own property of `data`. -/
def protoProps : List String :=
  ["constructor", "hasOwnProperty", "isPrototypeOf", "propertyIsEnumerable",
   "toLocaleString", "toString", "valueOf", "__defineGetter__",
   "__defineSetter__", "__lookupGetter__", "__lookupSetter__", "__proto__"]

/-- The source text of a native method, `function name() { [native code] }`
(braces built from code points to keep string literals brace-free). -/
def nativeCode (name : String) : String :=
  "function " ++ name ++ "() " ++ String.mk [lbrace] ++ " [native code] "
    ++ String.mk [rbrace]

/-- Modelled `String(({})[k])` for an inherited name `k`: `__proto__` is the
`Object.prototype` object itself, `constructor` is the function named
`Object`, the rest are methods named like the property.  The precise text of
a native function is engine-defined (this is the V8 shape; JavaScriptCore
inserts newlines); no verified claim depends on this text, only on the fact
that the substitution happens. -/
def protoString (k : String) : String :=
  if k = "__proto__" then "[object Object]"
  else if k = "constructor" then nativeCode "Object"
  else nativeCode k

/-- Keys for which the webhook loop's dynamically built regex
`{{key}}` matches exactly the literal text `{{key}}`: nonempty, all word
characters, at least one non-digit (an all-digit key makes `{n}` parse as a
quantifier; a non-word key changes the match or makes `new RegExp` throw). -/
def litKey (k : String) : Bool :=
  !k.data.isEmpty && k.data.all isWordChar && k.data.any (fun c => !c.isDigit)

/-! ### The manual renderer

`renderTemplate` in `execute_prompt.ts`:

```
template.replace(/\{\{(\w+)\}\}/g, (match, key) =>
  data[key] !== undefined ? String(data[key]) : match)
```

A global regex replace is a single left-to-right scan: at each position the
engine tries to match `{{`, one or more word characters, `}}`; on success the
callback's result is emitted and scanning resumes after the match (the
emitted text is never rescanned); on failure one character is emitted and the
scan advances one position.  Greedy `\w+` with the following `}}` matches
exactly a maximal word-character run followed by `}}`. -/

/-- Try to match the placeholder regex at the start of the input; on success
return the key characters and the input remaining after the match. -/
def matchPlaceholder (l : List Char) : Option (List Char × List Char) :=
  match l with
  | c1 :: c2 :: cs =>
    if c1 = lbrace ∧ c2 = lbrace then
      match cs.dropWhile isWordChar with
      | d1 :: d2 :: rest =>
        if d1 = rbrace ∧ d2 = rbrace ∧ cs.takeWhile isWordChar ≠ [] then
          some (cs.takeWhile isWordChar, rest)
        else none
      | _ => none
    else none
  | _ => none

/-- The verbatim text of a placeholder with key `w`, i.e. the matched
characters `{{w}}`. -/
def phChars (w : List Char) : List Char :=
  lbrace :: lbrace :: (w ++ [rbrace, rbrace])

theorem matchPlaceholder_sound {l w rest : List Char}
    (h : matchPlaceholder l = some (w, rest)) :
    l = phChars w ++ rest ∧ w ≠ [] ∧ (∀ c ∈ w, isWordChar c) := by
  unfold matchPlaceholder at h
  split at h
  case h_2 => exact absurd h (by simp)
  case h_1 c1 c2 cs =>
    split at h
    case isFalse => exact absurd h (by simp)
    case isTrue hb =>
      obtain ⟨hb1, hb2⟩ := hb
      split at h
      case h_2 => exact absurd h (by simp)
      case h_1 d1 d2 rest' heq =>
        split at h
        case isFalse => exact absurd h (by simp)
        case isTrue hd =>
          obtain ⟨hd1, hd2, hne⟩ := hd
          obtain ⟨hw, hr⟩ : cs.takeWhile isWordChar = w ∧ rest' = rest := by
            simpa using h
          refine ⟨?_, hw ▸ hne, fun c hc => List.mem_takeWhile_imp (hw.symm ▸ hc)⟩
          have hcs : cs = w ++ (rbrace :: rbrace :: rest) := by
            conv_lhs => rw [← List.takeWhile_append_dropWhile isWordChar cs]
            rw [heq, hw, hd1, hd2, hr]
          rw [hb1, hb2, hcs]
          simp [phChars]

theorem matchPlaceholder_some_length {l w rest : List Char}
    (h : matchPlaceholder l = some (w, rest)) : rest.length < l.length := by
  obtain ⟨hl, hw, -⟩ := matchPlaceholder_sound h
  subst hl
  simp only [phChars, List.length_append, List.length_cons]
  omega

/-- The callback result for a matched placeholder with key `w`:
`data[key] !== undefined ? String(data[key]) : match`.  The lookup is JS
property access: an own property of the mapping wins, otherwise an
`Object.prototype` name is still defined (and substituted), and only a name
found in neither place leaves the matched text verbatim. -/
def substFor (M : List (String × Json)) (w : List Char) : List Char :=
  match List.lookup (String.mk w) M with
  | some v => (jsToString v).data
  | none =>
    if protoProps.contains (String.mk w) then (protoString (String.mk w)).data
    else phChars w

/-- The left-to-right scan performed by the global regex replace of
`renderTemplate`, with data mapping `M` (values stringified on use).
Structural recursion on a fuel argument (a successful match consumes at
least four characters, so fuel equal to the input length suffices; see
`renderScan_cons_match` / `renderScan_cons_nomatch` for the fuel-free
unfolding). -/
def renderScanF (M : List (String × Json)) : Nat → List Char → List Char
  | 0, _ => []
  | _ + 1, [] => []
  | fuel + 1, c :: cs =>
    match matchPlaceholder (c :: cs) with
    | some (w, rest) => substFor M w ++ renderScanF M fuel rest
    | none => c :: renderScanF M fuel cs

/-- The scan with just enough fuel. -/
def renderScan (M : List (String × Json)) (l : List Char) : List Char :=
  renderScanF M l.length l

theorem renderScanF_fuel {M : List (String × Json)} :
    ∀ {f₁ f₂ : Nat} {l : List Char}, l.length ≤ f₁ → l.length ≤ f₂ →
      renderScanF M f₁ l = renderScanF M f₂ l := by
  intro f₁
  induction f₁ using Nat.strong_induction_on with
  | _ f₁ ih =>
    intro f₂ l h1 h2
    match f₁, f₂, l with
    | g₁, g₂, [] => cases g₁ <;> cases g₂ <;> rfl
    | 0, _, c :: cs => simp at h1
    | _, 0, c :: cs => simp at h2
    | g₁ + 1, g₂ + 1, c :: cs =>
      simp only [renderScanF]
      match hm : matchPlaceholder (c :: cs) with
      | some (w, rest) =>
        have hlen := matchPlaceholder_some_length hm
        have hle : rest.length ≤ g₁ ∧ rest.length ≤ g₂ := by
          simp at h1 h2 hlen
          omega
        dsimp only
        rw [ih g₁ (Nat.lt_succ_self _) hle.1 hle.2]
      | none =>
        have hle : cs.length ≤ g₁ ∧ cs.length ≤ g₂ := by
          simp at h1 h2
          omega
        dsimp only
        rw [ih g₁ (Nat.lt_succ_self _) hle.1 hle.2]

theorem renderScan_nil (M : List (String × Json)) : renderScan M [] = [] := rfl

theorem renderScanF_cons (M : List (String × Json)) (fuel : Nat) (c : Char)
    (cs : List Char) :
    renderScanF M (fuel + 1) (c :: cs) =
      match matchPlaceholder (c :: cs) with
      | some (w, rest) => substFor M w ++ renderScanF M fuel rest
      | none => c :: renderScanF M fuel cs := rfl

theorem renderScan_cons_match {l w rest : List Char} (M : List (String × Json))
    (h : matchPlaceholder l = some (w, rest)) :
    renderScan M l = substFor M w ++ renderScan M rest := by
  match l, h with
  | [], h => exact Option.noConfusion h
  | c :: cs, h =>
    show renderScanF M (cs.length + 1) (c :: cs) = _
    rw [renderScanF_cons, h]
    dsimp only
    congr 1
    apply renderScanF_fuel
    · have := matchPlaceholder_some_length h
      simp at this
      omega
    · exact le_refl _

theorem renderScan_cons_nomatch {c : Char} {cs : List Char}
    (M : List (String × Json)) (h : matchPlaceholder (c :: cs) = none) :
    renderScan M (c :: cs) = c :: renderScan M cs := by
  show renderScanF M (cs.length + 1) (c :: cs) = _
  rw [renderScanF_cons, h]
  rfl

/-- `renderTemplate` of `execute_prompt.ts` (the `data = {}` default of the
missing-argument case is applied by the caller). -/
def renderTemplate (template : String) (data : List (String × Json)) : String :=
  String.mk (renderScan data template.data)

/-! ### The webhook renderer

`webhook_execution.ts` renders with a per-key loop:

```
for (const [key, value] of Object.entries(input.payload)) {
  renderedPrompt = renderedPrompt.replace(new RegExp(`{{${key}}}`, 'g'), String(value));
}
```

For a key made of word characters (and not purely of digits, which would make
`{{key}}` contain a `{n}` quantifier) the constructed regex matches exactly
the literal text `{{key}}`; a global replace with a *string* replacement
substitutes every non-overlapping occurrence left to right, expanding the
JavaScript replacement patterns `$$`, `$&`, `` $` ``, `$'` in the replacement
string (the regex has no capture groups, so `$1` etc. stay literal).  The
replaced text is not rescanned for the same key, but later keys of the loop
do scan the text produced for earlier keys. -/

/-- Dollar sign. -/
def dollar : Char := Char.ofNat 36

/-- Backquote. -/
def backquote : Char := Char.ofNat 96

/-- Single quote. -/
def squote : Char := Char.ofNat 39

/-- Boolean prefix test on character lists. -/
def prefixOf : List Char → List Char → Bool
  | [], _ => true
  | _ :: _, [] => false
  | p :: ps, c :: cs => p = c && prefixOf ps cs

theorem prefixOf_eq_true {p l : List Char} (h : prefixOf p l = true) :
    ∃ t, l = p ++ t := by
  induction p generalizing l with
  | nil => exact ⟨l, rfl⟩
  | cons a ps ih =>
    match l with
    | [] => exact Bool.noConfusion h
    | c :: cs =>
      simp only [prefixOf, Bool.and_eq_true, decide_eq_true_eq] at h
      obtain ⟨t, ht⟩ := ih h.2
      exact ⟨t, by simp [← h.1, ht]⟩

theorem prefixOf_append (p t : List Char) : prefixOf p (p ++ t) = true := by
  induction p with
  | nil => rfl
  | cons a ps ih => simp [prefixOf, ih]

/-- Expansion of JavaScript replacement patterns in a replacement string,
for a regex without capture groups: `$$` is a literal dollar, `$&` the
matched text, `` $` `` the part of the original string before the match,
`$'` the part after it; any other `$` is literal. -/
def expandDollar (matched before after : List Char) : List Char → List Char
  | [] => []
  | c :: cs =>
    if c = dollar then
      match cs with
      | [] => [c]
      | d :: rest =>
        if d = dollar then dollar :: expandDollar matched before after rest
        else if d = '&' then matched ++ expandDollar matched before after rest
        else if d = backquote then before ++ expandDollar matched before after rest
        else if d = squote then after ++ expandDollar matched before after rest
        else c :: expandDollar matched before after (d :: rest)
    else c :: expandDollar matched before after cs

theorem expandDollar_of_no_dollar {v : List Char} (hv : ∀ c ∈ v, c ≠ dollar)
    (matched before after : List Char) :
    expandDollar matched before after v = v := by
  induction v with
  | nil => rfl
  | cons c cs ih =>
    have hc : c ≠ dollar := hv c (by simp)
    unfold expandDollar
    rw [if_neg hc]
    exact congrArg (c :: ·) (ih fun x hx => hv x (by simp [hx]))

/-- Find the first occurrence of `pat` in a list: returns the part strictly
before the match and the part strictly after it. -/
def findSub (pat : List Char) : List Char → Option (List Char × List Char)
  | [] => none
  | c :: cs =>
    if prefixOf pat (c :: cs) then some ([], (c :: cs).drop pat.length)
    else
      match findSub pat cs with
      | some (pre, post) => some (c :: pre, post)
      | none => none

theorem findSub_decomp {pat l pre post : List Char}
    (h : findSub pat l = some (pre, post)) : l = pre ++ pat ++ post := by
  induction l generalizing pre with
  | nil => simp [findSub] at h
  | cons c cs ih =>
    rw [findSub] at h
    split at h
    case isTrue hp =>
      obtain ⟨t, ht⟩ := prefixOf_eq_true hp
      obtain ⟨h1, h2⟩ : ([] : List Char) = pre ∧ (c :: cs).drop pat.length = post := by
        simpa using h
      subst h1
      rw [← h2, ht]
      simp
    case isFalse hp =>
      split at h
      case h_2 => exact absurd h (by simp)
      case h_1 pre' post' heq =>
        obtain ⟨h1, h2⟩ : c :: pre' = pre ∧ post' = post := by simpa using h
        subst h1 h2
        simpa using ih heq

theorem findSub_some_length {pat l pre post : List Char} (hpat : pat ≠ [])
    (h : findSub pat l = some (pre, post)) : post.length < l.length := by
  have := findSub_decomp h
  subst this
  have : 0 < pat.length := List.length_pos.mpr hpat
  simp only [List.length_append]
  omega

/-- One global literal replace `s.replace(new RegExp(pat, 'g'), v)` for a
pattern with head character `p0` and tail `ps` (so the pattern is never
empty); `done` accumulates the original characters already scanned, needed
for the `` $` `` and `$'` replacement patterns. -/
def replaceAllCoreF (p0 : Char) (ps : List Char) (v : List Char) :
    Nat → List Char → List Char → List Char
  | 0, _, s => s
  | fuel + 1, done, s =>
    match findSub (p0 :: ps) s with
    | none => s
    | some (pre, post) =>
      pre ++ expandDollar (p0 :: ps) (done ++ pre) post v
          ++ replaceAllCoreF p0 ps v fuel (done ++ pre ++ (p0 :: ps)) post

/-- The replacement loop with just enough fuel (each match consumes at least
the nonempty pattern, so fuel equal to the subject length suffices). -/
def replaceAllCore (p0 : Char) (ps v done s : List Char) : List Char :=
  replaceAllCoreF p0 ps v s.length done s

theorem replaceAllCoreF_fuel {p0 : Char} {ps v : List Char} :
    ∀ {f₁ f₂ : Nat} {done s : List Char}, s.length ≤ f₁ → s.length ≤ f₂ →
      replaceAllCoreF p0 ps v f₁ done s = replaceAllCoreF p0 ps v f₂ done s := by
  intro f₁
  induction f₁ using Nat.strong_induction_on with
  | _ f₁ ih =>
    intro f₂ done s h1 h2
    match f₁, f₂, s with
    | g₁, g₂, [] =>
      cases g₁ <;> cases g₂ <;> simp [replaceAllCoreF, findSub]
    | 0, _, c :: cs => simp at h1
    | _, 0, c :: cs => simp at h2
    | g₁ + 1, g₂ + 1, c :: cs =>
      simp only [replaceAllCoreF]
      match hf : findSub (p0 :: ps) (c :: cs) with
      | none => rfl
      | some (pre, post) =>
        have hlen := findSub_some_length (by simp) hf
        have hle : post.length ≤ g₁ ∧ post.length ≤ g₂ := by
          simp at h1 h2 hlen
          omega
        dsimp only
        rw [ih g₁ (Nat.lt_succ_self _) hle.1 hle.2]

theorem replaceAllCore_none {p0 : Char} {ps : List Char} (v done : List Char)
    {s : List Char} (h : findSub (p0 :: ps) s = none) :
    replaceAllCore p0 ps v done s = s := by
  match s with
  | [] => rfl
  | c :: cs =>
    show replaceAllCoreF p0 ps v (cs.length + 1) done (c :: cs) = _
    rw [replaceAllCoreF, h]

theorem replaceAllCore_some {p0 : Char} {ps : List Char} (v done : List Char)
    {s pre post : List Char} (h : findSub (p0 :: ps) s = some (pre, post)) :
    replaceAllCore p0 ps v done s =
      pre ++ expandDollar (p0 :: ps) (done ++ pre) post v
          ++ replaceAllCore p0 ps v (done ++ pre ++ (p0 :: ps)) post := by
  match s with
  | [] => exact Option.noConfusion h
  | c :: cs =>
    show replaceAllCoreF p0 ps v (cs.length + 1) done (c :: cs) = _
    rw [replaceAllCoreF, h]
    dsimp only
    have heq : replaceAllCoreF p0 ps v cs.length (done ++ pre ++ (p0 :: ps)) post
        = replaceAllCore p0 ps v (done ++ pre ++ (p0 :: ps)) post := by
      apply replaceAllCoreF_fuel
      · have := findSub_some_length (by simp) h
        simp at this
        omega
      · exact le_refl _
    rw [heq]

/-- `String.prototype.replace` with a global regex matching the literal text
`pat` and replacement string `v` (with `$`-pattern expansion). -/
def replaceAll (s pat v : String) : String :=
  match pat.data with
  | [] => s
  | p0 :: ps => String.mk (replaceAllCore p0 ps v.data [] s.data)

/-- The placeholder text `{{k}}` for a key `k`, as a string. -/
def phString (k : String) : String :=
  String.mk (phChars k.data)

/-- The rendering loop of `webhookExecution`: sequential global replacement
of `{{key}}` by `String(value)`, one key of the payload at a time, in
`Object.entries` order. -/
def webhookRender (template : String) (payload : List (String × Json)) : String :=
  payload.foldl (fun acc kv => replaceAll acc (phString kv.1) (jsToString kv.2)) template

/-! ### Data model and effectful context of the two handlers -/

/-- A row of `promptsTable` as the handlers read it: the five generation
parameters are stored as fixed-precision decimal text (`numeric` columns)
and parsed with `parseFloat` only when the completion request is built,
which is opaque to the verified claims, so they stay strings here. -/
structure Prompt where
  name : String
  description : Option String
  prompt_text : String
  model : String
  temperature : String
  max_tokens : Option Int
  top_p : String
  frequency_penalty : String
  presence_penalty : String
  destination_webhook_url : String
  cron_schedule : Option String
  is_active : Bool

/-- The Execution Record the handlers persist and return (the database
assigns `id` and `created_at`; both are outside the verified claims). -/
structure ExecutionRecord where
  prompt_id : Nat
  trigger_type : String
  input_data : Option Json
  rendered_prompt : String
  openai_response : Json
  webhook_response_status : Option Nat
  webhook_response_body : Option String
  execution_status : String
  error_message : Option String

/-- Input of `executePrompt` (`executePromptInputSchema`): `template_data`
is optional. -/
structure ExecutePromptInput where
  prompt_id : Nat
  template_data : Option (List (String × Json))

/-- Input of `webhookExecution` (`webhookExecutionInputSchema`): `payload`
is required (may be empty). -/
structure WebhookExecutionInput where
  prompt_id : Nat
  payload : List (String × Json)

/-- Outcome of the completion `fetch` plus the following `.json()` parse:
either a parsed object body with an HTTP status, a response whose body is
not valid JSON (`.json()` throws), or a transport-level failure (`fetch`
rejects). -/
inductive HttpOutcome where
  | ok (status : Nat) (body : List (String × Json))
  | jsonError (status : Nat) (msg : String)
  | netError (msg : String)

/-- Outcome of the delivery `fetch` plus the following `.text()` read:
a status with raw body text, a status whose body read fails, or a
transport-level failure. -/
inductive DeliveryOutcome where
  | response (status : Nat) (body : String)
  | textError (status : Nat) (msg : String)
  | netError (msg : String)

/-- Outbound actions a handler performs, in order: the completion call, the
delivery `POST` (with target URL and the JSON payload it serializes), and
the insert into `executionHistoryTable`. -/
inductive Effect where
  | completionCall
  | deliveryCall (url : String) (payload : Json)
  | recordInsert

/-- Whether an effect is the outbound delivery call. -/
def Effect.isDelivery : Effect → Bool
  | .deliveryCall _ _ => true
  | _ => false

/-- Whether an effect is the execution-history insert. -/
def Effect.isInsert : Effect → Bool
  | .recordInsert => true
  | _ => false

/-- `Response.ok`: status in the inclusive range 200–299. -/
def statusOk (s : Nat) : Bool := 200 ≤ s && s < 300

/-- The optional chain `openaiResponse['choices']?.[0]?.['message']?.['content']`. -/
def extractedContent (body : List (String × Json)) : Option Json :=
  (((List.lookup "choices" body).bind jsIndex0).bind
    (fun j => jsField j "message")).bind (fun j => jsField j "content")

/-- The extracted content when the `if` guard on it passes JavaScript
truthiness, else `none`. -/
def contentTruthy (body : List (String × Json)) : Option Json :=
  match extractedContent body with
  | some c => if jsTruthy c then some c else none
  | none => none

/-- `openaiResponse['error']?.['message'] || 'Unknown error'` stringified
into the thrown error text. -/
def openaiErrorDetail (body : List (String × Json)) : String :=
  match (List.lookup "error" body).bind (fun j => jsField j "message") with
  | some v => if jsTruthy v then jsToString v else "Unknown error"
  | none => "Unknown error"

/-! ### The manual/scheduled entry point, `execute_prompt.ts`

Control flow of `executePrompt`: fetch the prompt (not found / inactive ⇒
throw, nothing else happens); render; `fetch` the completion endpoint and
`await .json()` — **neither `response.ok` is checked nor is this call inside
the inner `try`**, so a transport or parse failure propagates to the outer
`catch`, which logs and **rethrows** (no record); otherwise delivery is
attempted inside a `try/catch`, its outcome classified, and one record is
inserted and returned. -/

def executePromptT (repo : Nat → Option Prompt) (input : ExecutePromptInput)
    (comp : HttpOutcome) (deliv : DeliveryOutcome) :
    Except String ExecutionRecord × List Effect :=
  match repo input.prompt_id with
  | none =>
    (.error ("Prompt with id " ++ toString input.prompt_id ++ " not found"), [])
  | some prompt =>
    if prompt.is_active = false then
      (.error ("Prompt with id " ++ toString input.prompt_id ++ " is not active"), [])
    else
      let renderedPrompt := renderTemplate prompt.prompt_text (input.template_data.getD [])
      match comp with
      | .netError msg => (.error msg, [.completionCall])
      | .jsonError _ msg => (.error msg, [.completionCall])
      | .ok _ body =>
        let deliveryPayload : Json := .obj
          ([("prompt_id", .num (Int.ofNat input.prompt_id)),
            ("rendered_prompt", .str renderedPrompt),
            ("openai_response", .obj body)] ++
           (match input.template_data with
            | some m => [("template_data", Json.obj m)]
            | none => []))
        let outcome : Option Nat × Option String × String × Option String :=
          match deliv with
          | .response s b =>
            if statusOk s then (some s, some b, "success", none)
            else (some s, some b, "failed",
              some ("Webhook failed with status " ++ toString s))
          | .textError s msg =>
            (some s, none, "failed", some ("Webhook error: " ++ msg))
          | .netError msg =>
            (none, none, "failed", some ("Webhook error: " ++ msg))
        (.ok {
          prompt_id := input.prompt_id,
          trigger_type := "cron",
          input_data := (input.template_data).map Json.obj,
          rendered_prompt := renderedPrompt,
          openai_response := .obj body,
          webhook_response_status := outcome.1,
          webhook_response_body := outcome.2.1,
          execution_status := outcome.2.2.1,
          error_message := outcome.2.2.2 },
         [.completionCall,
          .deliveryCall prompt.destination_webhook_url deliveryPayload,
          .recordInsert])

/-! ### The webhook-invoked entry point, `webhook_execution.ts`

Control flow of `webhookExecution`: fetch the prompt (not found / inactive ⇒
throw); render with the per-key loop; then, inside a `try/catch`: call the
completion endpoint, throw on `!ok`, check extractable content, deliver when
content is truthy; the `catch` records the error message and synthesizes an
`{error: message}` response when none was captured.  One record is always
inserted after the `try/catch` and returned. -/

def webhookExecutionT (repo : Nat → Option Prompt) (input : WebhookExecutionInput)
    (comp : HttpOutcome) (deliv : DeliveryOutcome) :
    Except String ExecutionRecord × List Effect :=
  match repo input.prompt_id with
  | none =>
    (.error ("Prompt with ID " ++ toString input.prompt_id ++ " not found"), [])
  | some prompt =>
    if prompt.is_active = false then
      (.error ("Prompt with ID " ++ toString input.prompt_id ++ " is not active"), [])
    else
      let renderedPrompt := webhookRender prompt.prompt_text input.payload
      let finish := fun (resp : List (String × Json)) (ws : Option Nat)
          (wb : Option String) (st : String) (em : Option String)
          (effs : List Effect) =>
        ((Except.ok {
            prompt_id := input.prompt_id,
            trigger_type := "webhook",
            input_data := some (Json.obj input.payload),
            rendered_prompt := renderedPrompt,
            openai_response := Json.obj resp,
            webhook_response_status := ws,
            webhook_response_body := wb,
            execution_status := st,
            error_message := em } : Except String ExecutionRecord),
         effs ++ [Effect.recordInsert])
      match comp with
      | .netError msg =>
        finish [("error", .str msg)] none none "failed" (some msg) [.completionCall]
      | .jsonError _ msg =>
        finish [("error", .str msg)] none none "failed" (some msg) [.completionCall]
      | .ok status body =>
        if statusOk status = false then
          let em := "OpenAI API error: " ++ openaiErrorDetail body
          finish (if body.isEmpty then [("error", Json.str em)] else body)
            none none "failed" (some em) [.completionCall]
        else
          match contentTruthy body with
          | none =>
            finish body none none "failed"
              (some "No content received from OpenAI API") [.completionCall]
          | some c =>
            let deliveryPayload : Json := .obj
              [("prompt_id", .num (Int.ofNat input.prompt_id)),
               ("original_payload", .obj input.payload),
               ("openai_response", c),
               ("execution_id", Json.null)]
            let effs := [Effect.completionCall,
              Effect.deliveryCall prompt.destination_webhook_url deliveryPayload]
            match deliv with
            | .response s b =>
              if statusOk s then
                finish body (some s) (some b) "success" none effs
              else
                finish body (some s) (some b) "failed"
                  (some ("Webhook delivery failed with status " ++ toString s ++ ": " ++ b))
                  effs
            | .textError s msg =>
              finish (if body.isEmpty then [("error", Json.str msg)] else body)
                (some s) none "failed" (some msg) effs
            | .netError msg =>
              finish (if body.isEmpty then [("error", Json.str msg)] else body)
                none none "failed" (some msg) effs

/-! ### Concrete fixtures used by examples and witnesses -/

/-- The end-to-end example template of the design notes:
`"Hello {{name}}, how are you?"`. -/
def helloTemplate : String := "Hello " ++ phString "name" ++ ", how are you?"

/-- An active prompt with a given template. -/
def activePrompt (t : String) : Prompt :=
  { name := "p", description := none, prompt_text := t, model := "gpt-4",
    temperature := "0.7", max_tokens := none, top_p := "1",
    frequency_penalty := "0", presence_penalty := "0",
    destination_webhook_url := "https://example.com/hook", cron_schedule := none,
    is_active := true }

/-- The same prompt deactivated. -/
def inactivePrompt (t : String) : Prompt :=
  { activePrompt t with is_active := false }

/-- A repository holding exactly one prompt, under id 1. -/
def repoOne (p : Prompt) : Nat → Option Prompt :=
  fun n => if n = 1 then some p else none

/-- A completion response body carrying extractable generated text. -/
def okBody (content : String) : List (String × Json) :=
  [("choices", .arr [.obj [("message", .obj [("content", .str content)])]])]

example :
    (executePromptT (repoOne (activePrompt helloTemplate))
        { prompt_id := 1, template_data := some [("name", .str "John")] }
        (.ok 200 (okBody "Hello John, I am doing well!")) (.response 200 "OK")).1.toOption.map
      (fun r => (r.execution_status, r.rendered_prompt, r.webhook_response_status))
    = some ("success", "Hello John, how are you?", some 200) := by decide

/-! ### The claims -/

/-- C5: for every prompt whose active flag is false, both entry points
reject the invocation with an inactive error before any Execution Record is
written and before any outbound network call (completion or delivery) is
attempted: each returns the thrown inactive error together with an empty
effect trace. -/
theorem inactive_prompt_rejected_before_effects (repo : Nat → Option Prompt)
    (prompt : Prompt) (pid : Nat) (hrepo : repo pid = some prompt)
    (hact : prompt.is_active = false) (tdata : Option (List (String × Json)))
    (payload : List (String × Json)) (comp : HttpOutcome) (deliv : DeliveryOutcome) :
    executePromptT repo { prompt_id := pid, template_data := tdata } comp deliv
      = (.error ("Prompt with id " ++ toString pid ++ " is not active"), []) ∧
    webhookExecutionT repo { prompt_id := pid, payload := payload } comp deliv
      = (.error ("Prompt with ID " ++ toString pid ++ " is not active"), []) := by
  constructor <;> simp [executePromptT, webhookExecutionT, hrepo, hact]

/-- Witness for C5 at a concrete inactive prompt: the hypotheses hold and
both rejections happen with no effects. -/
theorem inactive_prompt_rejected_before_effects_witness :
    repoOne (inactivePrompt helloTemplate) 1 = some (inactivePrompt helloTemplate) ∧
    (inactivePrompt helloTemplate).is_active = false ∧
    executePromptT (repoOne (inactivePrompt helloTemplate))
        { prompt_id := 1, template_data := none } (.netError "unused") (.netError "unused")
      = (.error "Prompt with id 1 is not active", []) ∧
    webhookExecutionT (repoOne (inactivePrompt helloTemplate))
        { prompt_id := 1, payload := [] } (.netError "unused") (.netError "unused")
      = (.error "Prompt with ID 1 is not active", []) :=
  ⟨rfl, rfl,
    (inactive_prompt_rejected_before_effects _ _ 1 rfl rfl none [] _ _).1,
    (inactive_prompt_rejected_before_effects _ _ 1 rfl rfl none [] _ _).2⟩

/-- C6: for every prompt identifier not present in the repository, both
entry points reject the invocation with a not-found error and no Execution
Record is written (empty effect trace, so no call is attempted either). -/
theorem missing_prompt_rejected_without_record (repo : Nat → Option Prompt)
    (pid : Nat) (hrepo : repo pid = none) (tdata : Option (List (String × Json)))
    (payload : List (String × Json)) (comp : HttpOutcome) (deliv : DeliveryOutcome) :
    executePromptT repo { prompt_id := pid, template_data := tdata } comp deliv
      = (.error ("Prompt with id " ++ toString pid ++ " not found"), []) ∧
    webhookExecutionT repo { prompt_id := pid, payload := payload } comp deliv
      = (.error ("Prompt with ID " ++ toString pid ++ " not found"), []) := by
  constructor <;> simp [executePromptT, webhookExecutionT, hrepo]

/-- Witness for C6 at a concrete absent id. -/
theorem missing_prompt_rejected_without_record_witness :
    repoOne (activePrompt helloTemplate) 2 = none ∧
    executePromptT (repoOne (activePrompt helloTemplate))
        { prompt_id := 2, template_data := none } (.netError "unused") (.netError "unused")
      = (.error "Prompt with id 2 not found", []) ∧
    webhookExecutionT (repoOne (activePrompt helloTemplate))
        { prompt_id := 2, payload := [] } (.netError "unused") (.netError "unused")
      = (.error "Prompt with ID 2 not found", []) :=
  ⟨rfl,
    (missing_prompt_rejected_without_record _ 2 rfl none [] _ _).1,
    (missing_prompt_rejected_without_record _ 2 rfl none [] _ _).2⟩

/-- C7: for both entry points, a successful completion call followed by a
delivery call answering HTTP 500 yields a persisted record with
`execution_status = 'failed'`, `webhook_response_status = 500`,
`webhook_response_body` the raw delivery body, and an error message
referencing the delivery failure (the webhook variant reaches the delivery
only when generated content was extractable, hence its extra hypothesis). -/
theorem delivery_500_records_failure (repo : Nat → Option Prompt)
    (prompt : Prompt) (pid : Nat) (hrepo : repo pid = some prompt)
    (hact : prompt.is_active = true) (s : Nat) (hs : statusOk s = true)
    (body : List (String × Json)) (c : Json) (hc : contentTruthy body = some c)
    (bodyText : String) (tdata : Option (List (String × Json)))
    (payload : List (String × Json)) :
    (∀ r, (executePromptT repo { prompt_id := pid, template_data := tdata }
            (.ok s body) (.response 500 bodyText)).1 = .ok r →
       r.execution_status = "failed" ∧ r.webhook_response_status = some 500 ∧
       r.webhook_response_body = some bodyText ∧
       r.error_message = some "Webhook failed with status 500") ∧
    (∀ r, (webhookExecutionT repo { prompt_id := pid, payload := payload }
            (.ok s body) (.response 500 bodyText)).1 = .ok r →
       r.execution_status = "failed" ∧ r.webhook_response_status = some 500 ∧
       r.webhook_response_body = some bodyText ∧
       r.error_message = some ("Webhook delivery failed with status 500: " ++ bodyText)) := by
  have h500 : statusOk 500 = false := rfl
  constructor
  · intro r hr
    simp [executePromptT, hrepo, hact, h500] at hr
    obtain rfl := hr
    exact ⟨rfl, rfl, rfl, rfl⟩
  · intro r hr
    simp [webhookExecutionT, hrepo, hact, hs, hc, h500] at hr
    obtain rfl := hr
    exact ⟨rfl, rfl, rfl, rfl⟩

/-- Witness for C7: a concrete run of both variants through a 500 delivery. -/
theorem delivery_500_records_failure_witness :
    repoOne (activePrompt helloTemplate) 1 = some (activePrompt helloTemplate) ∧
    (activePrompt helloTemplate).is_active = true ∧
    statusOk 200 = true ∧
    contentTruthy (okBody "hi") = some (.str "hi") ∧
    (∀ r, (executePromptT (repoOne (activePrompt helloTemplate))
            { prompt_id := 1, template_data := none }
            (.ok 200 (okBody "hi")) (.response 500 "oops")).1 = .ok r →
       r.execution_status = "failed" ∧ r.webhook_response_status = some 500 ∧
       r.webhook_response_body = some "oops" ∧
       r.error_message = some "Webhook failed with status 500") ∧
    (∀ r, (webhookExecutionT (repoOne (activePrompt helloTemplate))
            { prompt_id := 1, payload := [] }
            (.ok 200 (okBody "hi")) (.response 500 "oops")).1 = .ok r →
       r.execution_status = "failed" ∧ r.webhook_response_status = some 500 ∧
       r.webhook_response_body = some "oops" ∧
       r.error_message = some ("Webhook delivery failed with status 500: " ++ "oops")) :=
  ⟨rfl, rfl, rfl, rfl,
    (delivery_500_records_failure _ _ 1 rfl rfl 200 rfl (okBody "hi") (.str "hi") rfl
      "oops" none []).1,
    (delivery_500_records_failure _ _ 1 rfl rfl 200 rfl (okBody "hi") (.str "hi") rfl
      "oops" none []).2⟩

/-- C9: every Execution Record either entry point returns satisfies
`error_message` is non-null iff `execution_status = 'failed'`. -/
theorem error_message_iff_failed (repo : Nat → Option Prompt)
    (im : ExecutePromptInput) (iw : WebhookExecutionInput)
    (comp : HttpOutcome) (deliv : DeliveryOutcome) :
    (∀ r, (executePromptT repo im comp deliv).1 = .ok r →
        (r.error_message.isSome ↔ r.execution_status = "failed")) ∧
    (∀ r, (webhookExecutionT repo iw comp deliv).1 = .ok r →
        (r.error_message.isSome ↔ r.execution_status = "failed")) := by
  constructor
  · intro r hr
    unfold executePromptT at hr
    cases hrepo : repo im.prompt_id with
    | none => rw [hrepo] at hr; simp at hr
    | some prompt =>
      rw [hrepo] at hr
      by_cases hact : prompt.is_active = false
      · simp [hact] at hr
      · simp only [hact, if_false] at hr
        cases comp with
        | netError m => simp at hr
        | jsonError s m => simp at hr
        | ok s body =>
          cases deliv with
          | response ds db =>
            by_cases hok : statusOk ds = true
            · simp [hok] at hr
              obtain rfl := hr
              simp
            · simp [hok] at hr
              obtain rfl := hr
              simp
          | textError ds m =>
            simp at hr
            obtain rfl := hr
            simp
          | netError m =>
            simp at hr
            obtain rfl := hr
            simp
  · intro r hr
    unfold webhookExecutionT at hr
    cases hrepo : repo iw.prompt_id with
    | none => rw [hrepo] at hr; simp at hr
    | some prompt =>
      rw [hrepo] at hr
      by_cases hact : prompt.is_active = false
      · simp [hact] at hr
      · simp only [hact, if_false] at hr
        cases comp with
        | netError m =>
          simp at hr
          obtain rfl := hr
          simp
        | jsonError s m =>
          simp at hr
          obtain rfl := hr
          simp
        | ok s body =>
          by_cases hok : statusOk s = false
          · simp [hok] at hr
            obtain rfl := hr
            simp
          · simp only [hok, if_false] at hr
            cases hct : contentTruthy body with
            | none =>
              rw [hct] at hr
              simp at hr
              obtain rfl := hr
              simp
            | some c =>
              rw [hct] at hr
              cases deliv with
              | response ds db =>
                by_cases hds : statusOk ds = true
                · simp [hds] at hr
                  obtain rfl := hr
                  simp
                · simp [hds] at hr
                  obtain rfl := hr
                  simp
              | textError ds m =>
                simp at hr
                obtain rfl := hr
                simp
              | netError m =>
                simp at hr
                obtain rfl := hr
                simp

/-- The record produced by the concrete run used to witness C9. -/
def sampleSuccessRecord : ExecutionRecord :=
  { prompt_id := 1, trigger_type := "cron", input_data := none,
    rendered_prompt := helloTemplate, openai_response := .obj (okBody "hi"),
    webhook_response_status := some 200, webhook_response_body := some "OK",
    execution_status := "success", error_message := none }

/-- Witness for C9: a concrete successful run of the manual variant. -/
theorem error_message_iff_failed_witness :
    (executePromptT (repoOne (activePrompt helloTemplate))
        { prompt_id := 1, template_data := none }
        (.ok 200 (okBody "hi")) (.response 200 "OK")).1 = .ok sampleSuccessRecord ∧
    (sampleSuccessRecord.error_message.isSome ↔
      sampleSuccessRecord.execution_status = "failed") :=
  ⟨rfl,
    (error_message_iff_failed (repoOne (activePrompt helloTemplate))
      { prompt_id := 1, template_data := none } { prompt_id := 1, payload := [] }
      (.ok 200 (okBody "hi")) (.response 200 "OK")).1 sampleSuccessRecord rfl⟩

/-- C10: whenever the webhook-invoked entry point POSTs to the destination
webhook, the serialized JSON payload is exactly the prompt identifier, the
original caller payload, the extracted generated text, and an
`execution_id` field equal to `null` — the `null` is never replaced by the
persisted record's identity (the payload is serialized before the record
exists and no later write happens). -/
theorem webhook_delivery_payload_execution_id_null (repo : Nat → Option Prompt)
    (iw : WebhookExecutionInput) (comp : HttpOutcome) (deliv : DeliveryOutcome)
    (u : String) (p : Json)
    (hmem : Effect.deliveryCall u p ∈ (webhookExecutionT repo iw comp deliv).2) :
    jsField p "execution_id" = some Json.null ∧
    ∃ c, p = Json.obj
      [("prompt_id", .num (Int.ofNat iw.prompt_id)),
       ("original_payload", .obj iw.payload),
       ("openai_response", c),
       ("execution_id", Json.null)] := by
  have key : ∃ c, p = Json.obj
      [("prompt_id", .num (Int.ofNat iw.prompt_id)),
       ("original_payload", .obj iw.payload),
       ("openai_response", c),
       ("execution_id", Json.null)] := by
    unfold webhookExecutionT at hmem
    cases hrepo : repo iw.prompt_id with
    | none => rw [hrepo] at hmem; simp at hmem
    | some prompt =>
      rw [hrepo] at hmem
      by_cases hact : prompt.is_active = false
      · simp [hact] at hmem
      · simp only [hact, if_false] at hmem
        cases comp with
        | netError m => simp at hmem
        | jsonError s m => simp at hmem
        | ok s body =>
          by_cases hok : statusOk s = false
          · simp [hok] at hmem
          · simp only [hok, if_false] at hmem
            cases hct : contentTruthy body with
            | none => rw [hct] at hmem; simp at hmem
            | some c =>
              rw [hct] at hmem
              refine ⟨c, ?_⟩
              cases deliv with
              | response ds db =>
                by_cases hds : statusOk ds = true
                · simp [hds] at hmem
                  exact hmem.2
                · simp [hds] at hmem
                  exact hmem.2
              | textError ds m =>
                simp at hmem
                exact hmem.2
              | netError m =>
                simp at hmem
                exact hmem.2
  obtain ⟨c, rfl⟩ := key
  refine ⟨?_, ⟨c, rfl⟩⟩
  simp [jsField, List.lookup]

/-- Witness for C10: a concrete delivering run. -/
theorem webhook_delivery_payload_execution_id_null_witness :
    Effect.deliveryCall "https://example.com/hook"
        (Json.obj [("prompt_id", .num 1), ("original_payload", .obj []),
                   ("openai_response", .str "hi"), ("execution_id", Json.null)])
      ∈ (webhookExecutionT (repoOne (activePrompt helloTemplate))
          { prompt_id := 1, payload := [] }
          (.ok 200 (okBody "hi")) (.response 200 "OK")).2 ∧
    jsField (Json.obj [("prompt_id", .num 1), ("original_payload", .obj []),
                       ("openai_response", .str "hi"), ("execution_id", Json.null)])
        "execution_id" = some Json.null :=
  ⟨by simp [webhookExecutionT, repoOne, activePrompt, contentTruthy,
        extractedContent, okBody, jsIndex0, jsField, jsTruthy, statusOk],
   (webhook_delivery_payload_execution_id_null
      (repoOne (activePrompt helloTemplate)) { prompt_id := 1, payload := [] }
      (.ok 200 (okBody "hi")) (.response 200 "OK") "https://example.com/hook" _
      (by simp [webhookExecutionT, repoOne, activePrompt, contentTruthy,
        extractedContent, okBody, jsIndex0, jsField, jsTruthy, statusOk])).1⟩

/-- C1 (amended): in the webhook-invoked entry point — on payloads whose
keys are all `litKey`, so the dynamically built rendering regexes are the
literal placeholder texts and the loop neither throws nor mismatches — a
completion call answering a non-2xx status yields a persisted record with
`execution_status = 'failed'`, no delivery attempt (`webhook_response_status`
and `webhook_response_body` are null and no delivery effect occurs), and a
non-null error message.  The manual/scheduled entry point does not behave
this way (see the counterexample): it never inspects the completion status. -/
theorem webhook_completion_non2xx_records_failure (repo : Nat → Option Prompt)
    (prompt : Prompt) (pid : Nat) (hrepo : repo pid = some prompt)
    (hact : prompt.is_active = true) (payload : List (String × Json))
    (hkeys : ∀ kv ∈ payload, litKey kv.1 = true)
    (s : Nat) (body : List (String × Json)) (hs : statusOk s = false)
    (deliv : DeliveryOutcome) :
    webhookExecutionT repo { prompt_id := pid, payload := payload } (.ok s body) deliv
      = (.ok { prompt_id := pid, trigger_type := "webhook",
               input_data := some (.obj payload),
               rendered_prompt := webhookRender prompt.prompt_text payload,
               openai_response := .obj (if body.isEmpty then
                 [("error", Json.str ("OpenAI API error: " ++ openaiErrorDetail body))]
                 else body),
               webhook_response_status := none, webhook_response_body := none,
               execution_status := "failed",
               error_message := some ("OpenAI API error: " ++ openaiErrorDetail body) },
         [.completionCall, .recordInsert]) := by
  simp [webhookExecutionT, hrepo, hact, hs]

/-- Witness for C1 at a concrete non-2xx completion outcome, with a
non-empty payload of literal keys. -/
theorem webhook_completion_non2xx_records_failure_witness :
    repoOne (activePrompt helloTemplate) 1 = some (activePrompt helloTemplate) ∧
    (∀ kv ∈ [(("name" : String), Json.str "John")], litKey kv.1 = true) ∧
    statusOk 500 = false ∧
    webhookExecutionT (repoOne (activePrompt helloTemplate))
        { prompt_id := 1, payload := [("name", .str "John")] }
        (.ok 500 [("error", .obj [("message", .str "boom")])]) (.response 200 "OK")
      = (.ok { prompt_id := 1, trigger_type := "webhook",
               input_data := some (.obj [("name", .str "John")]),
               rendered_prompt := "Hello John, how are you?",
               openai_response := .obj [("error", .obj [("message", .str "boom")])],
               webhook_response_status := none, webhook_response_body := none,
               execution_status := "failed",
               error_message := some "OpenAI API error: boom" },
         [.completionCall, .recordInsert]) :=
  ⟨rfl, by decide,  rfl,
    webhook_completion_non2xx_records_failure _ (activePrompt helloTemplate) 1 rfl rfl
      [("name", .str "John")] (by decide) 500
      [("error", .obj [("message", .str "boom")])] rfl (.response 200 "OK")⟩

/-- Counterexample to C1 as stated (it quantifies over *both* entry
points): the manual/scheduled `executePrompt` never checks the completion
response status.  With a 500 completion response it still attempts the
delivery, and with a 200 delivery the persisted record has
`execution_status = 'success'`, `webhook_response_status = 200` and a null
error message. -/
theorem manual_completion_non2xx_not_failed :
    statusOk 500 = false ∧
    (executePromptT (repoOne (activePrompt helloTemplate))
        { prompt_id := 1, template_data := none }
        (.ok 500 [("error", .str "boom")]) (.response 200 "OK")).1.toOption.map
      (fun r => (r.execution_status, r.webhook_response_status,
                 r.webhook_response_body, r.error_message))
      = some ("success", some 200, some "OK", none) ∧
    (executePromptT (repoOne (activePrompt helloTemplate))
        { prompt_id := 1, template_data := none }
        (.ok 500 [("error", .str "boom")]) (.response 200 "OK")).2.map Effect.isDelivery
      = [false, true, false] :=
  ⟨rfl, by decide, by decide⟩

/-- C2 (amended): in the webhook-invoked entry point, a transport-level
failure of the completion call (network error) or a malformed/non-JSON
response body is captured rather than thrown: a record with
`execution_status = 'failed'`, the error message, and a synthesized
`{error: message}` response payload is still persisted.  The
manual/scheduled entry point instead rethrows such failures and writes
nothing (see the counterexample).  As with C1, the payload keys are
assumed `litKey`, so the rendering loop is the embedded literal replace
and does not itself throw before the completion call. -/
theorem webhook_transport_error_records_failure (repo : Nat → Option Prompt)
    (prompt : Prompt) (pid : Nat) (hrepo : repo pid = some prompt)
    (hact : prompt.is_active = true) (payload : List (String × Json))
    (hkeys : ∀ kv ∈ payload, litKey kv.1 = true)
    (m : String) (st : Nat) (deliv : DeliveryOutcome) :
    webhookExecutionT repo { prompt_id := pid, payload := payload } (.netError m) deliv
      = (.ok { prompt_id := pid, trigger_type := "webhook",
               input_data := some (.obj payload),
               rendered_prompt := webhookRender prompt.prompt_text payload,
               openai_response := .obj [("error", .str m)],
               webhook_response_status := none, webhook_response_body := none,
               execution_status := "failed", error_message := some m },
         [.completionCall, .recordInsert]) ∧
    webhookExecutionT repo { prompt_id := pid, payload := payload } (.jsonError st m) deliv
      = (.ok { prompt_id := pid, trigger_type := "webhook",
               input_data := some (.obj payload),
               rendered_prompt := webhookRender prompt.prompt_text payload,
               openai_response := .obj [("error", .str m)],
               webhook_response_status := none, webhook_response_body := none,
               execution_status := "failed", error_message := some m },
         [.completionCall, .recordInsert]) := by
  constructor <;> simp [webhookExecutionT, hrepo, hact]

/-- Witness for C2 at a concrete transport failure. -/
theorem webhook_transport_error_records_failure_witness :
    repoOne (activePrompt helloTemplate) 1 = some (activePrompt helloTemplate) ∧
    (∀ kv ∈ [(("name" : String), Json.str "John")], litKey kv.1 = true) ∧
    webhookExecutionT (repoOne (activePrompt helloTemplate))
        { prompt_id := 1, payload := [("name", .str "John")] }
        (.netError "fetch failed") (.response 200 "OK")
      = (.ok { prompt_id := 1, trigger_type := "webhook",
               input_data := some (.obj [("name", .str "John")]),
               rendered_prompt := "Hello John, how are you?",
               openai_response := .obj [("error", .str "fetch failed")],
               webhook_response_status := none, webhook_response_body := none,
               execution_status := "failed", error_message := some "fetch failed" },
         [.completionCall, .recordInsert]) :=
  ⟨rfl, by decide,
    (webhook_transport_error_records_failure _ (activePrompt helloTemplate) 1 rfl rfl
      [("name", .str "John")] (by decide) "fetch failed" 200
      (.response 200 "OK")).1⟩

/-- Counterexample to C2 as stated (it quantifies over both entry points):
in the manual/scheduled `executePrompt` the completion call sits outside
the inner `try/catch`, so a transport failure propagates out of the handler
(the outer catch rethrows) and **no** Execution Record is produced — the
result is a thrown error and the effect trace shows no insert. -/
theorem manual_transport_error_throws_without_record :
    executePromptT (repoOne (activePrompt helloTemplate))
        { prompt_id := 1, template_data := none }
        (.netError "fetch failed") (.response 200 "OK")
      = (.error "fetch failed", [.completionCall]) := rfl

/-- C8 (amended): for both entry points, a successful completion call
followed by a 2xx delivery yields a record with
`execution_status = 'success'` and a null error message, whose
`rendered_prompt` is that entry point's own rendering of the template: the
single-pass `renderTemplate` substitution (whose lookup, being JS property
access, also substitutes unbound `Object.prototype` names) for the
manual/scheduled variant; and, on payloads whose keys are all `litKey` (so
the dynamically built regexes are literal and the loop neither throws nor
mismatches), the sequential per-key global substitution for the webhook
variant.  (The two renderings — and hence "the template with every
resolvable placeholder substituted" — coincide only under the conditions
of `render_variants_agree_on_clean_inputs`; see the counterexample.) -/
theorem success_path_record_fields (repo : Nat → Option Prompt)
    (prompt : Prompt) (pid : Nat) (hrepo : repo pid = some prompt)
    (hact : prompt.is_active = true) (s : Nat) (hs : statusOk s = true)
    (body : List (String × Json)) (c : Json) (hc : contentTruthy body = some c)
    (ds : Nat) (hds : statusOk ds = true) (db : String)
    (tdata : Option (List (String × Json))) (payload : List (String × Json))
    (hkeys : ∀ kv ∈ payload, litKey kv.1 = true) :
    (executePromptT repo { prompt_id := pid, template_data := tdata }
        (.ok s body) (.response ds db)).1
      = .ok { prompt_id := pid, trigger_type := "cron",
              input_data := tdata.map Json.obj,
              rendered_prompt := renderTemplate prompt.prompt_text (tdata.getD []),
              openai_response := .obj body,
              webhook_response_status := some ds, webhook_response_body := some db,
              execution_status := "success", error_message := none } ∧
    (webhookExecutionT repo { prompt_id := pid, payload := payload }
        (.ok s body) (.response ds db)).1
      = .ok { prompt_id := pid, trigger_type := "webhook",
              input_data := some (.obj payload),
              rendered_prompt := webhookRender prompt.prompt_text payload,
              openai_response := .obj body,
              webhook_response_status := some ds, webhook_response_body := some db,
              execution_status := "success", error_message := none } := by
  constructor
  · simp [executePromptT, hrepo, hact, hds]
  · simp [webhookExecutionT, hrepo, hact, hs, hc, hds]

/-- Witness for C8: the end-to-end example of the design notes, on both
variants. -/
theorem success_path_record_fields_witness :
    statusOk 200 = true ∧
    contentTruthy (okBody "Hello John, I am doing well!") = some (.str "Hello John, I am doing well!") ∧
    (executePromptT (repoOne (activePrompt helloTemplate))
        { prompt_id := 1, template_data := some [("name", .str "John")] }
        (.ok 200 (okBody "Hello John, I am doing well!")) (.response 200 "OK")).1
      = .ok { prompt_id := 1, trigger_type := "cron",
              input_data := some (.obj [("name", .str "John")]),
              rendered_prompt := "Hello John, how are you?",
              openai_response := .obj (okBody "Hello John, I am doing well!"),
              webhook_response_status := some 200, webhook_response_body := some "OK",
              execution_status := "success", error_message := none } ∧
    (webhookExecutionT (repoOne (activePrompt helloTemplate))
        { prompt_id := 1, payload := [("name", .str "John")] }
        (.ok 200 (okBody "Hello John, I am doing well!")) (.response 200 "OK")).1
      = .ok { prompt_id := 1, trigger_type := "webhook",
              input_data := some (.obj [("name", .str "John")]),
              rendered_prompt := "Hello John, how are you?",
              openai_response := .obj (okBody "Hello John, I am doing well!"),
              webhook_response_status := some 200, webhook_response_body := some "OK",
              execution_status := "success", error_message := none } :=
  ⟨rfl, rfl,
    (success_path_record_fields _ (activePrompt helloTemplate) 1 rfl rfl 200 rfl
      (okBody "Hello John, I am doing well!") (.str "Hello John, I am doing well!") rfl
      200 rfl "OK" (some [("name", .str "John")]) [("name", .str "John")] (by decide)).1,
    (success_path_record_fields _ (activePrompt helloTemplate) 1 rfl rfl 200 rfl
      (okBody "Hello John, I am doing well!") (.str "Hello John, I am doing well!") rfl
      200 rfl "OK" (some [("name", .str "John")]) [("name", .str "John")] (by decide)).2⟩

/-- Counterexample to C8 as stated: on the webhook variant's success path
the persisted `rendered_prompt` need not equal the template with its
placeholders substituted.  With template `{{a}}` and mapping
`a ↦ "{{b}}", b ↦ "X"`, the per-key loop first turns `{{a}}` into `{{b}}`
and then the later key `b` rewrites the injected text to `"X"`, while the
template's only placeholder (`a`, which is in the mapping) substitutes to
`{{b}}` — so the record (status success, error null) carries `"X"`, not the
substituted template. -/
theorem webhook_rendered_prompt_deviates :
    (webhookExecutionT (repoOne (activePrompt (phString "a")))
        { prompt_id := 1, payload := [("a", .str (phString "b")), ("b", .str "X")] }
        (.ok 200 (okBody "hi")) (.response 200 "OK")).1.toOption.map
      (fun r => (r.execution_status, r.error_message, r.rendered_prompt))
      = some ("success", none, "X") ∧
    renderTemplate (phString "a") [("a", .str (phString "b")), ("b", .str "X")]
      = phString "b" ∧
    ("X" : String) ≠ phString "b" :=
  ⟨by decide, by decide, by decide⟩

/-! ### Characterizing the single-pass renderer (for C3)

`tokenize` splits a template into its placeholder occurrences and all
remaining single characters, by exactly the scan the regex replace
performs; rendering maps each token independently and concatenates. -/

/-- A token of the scan: a plain character or a placeholder with key `w`. -/
inductive Tok where
  | chr (c : Char) : Tok
  | ph (w : List Char) : Tok

/-- Tokenization scan (fuelled like `renderScanF`). -/
def tokenizeF : Nat → List Char → List Tok
  | 0, _ => []
  | _ + 1, [] => []
  | fuel + 1, c :: cs =>
    match matchPlaceholder (c :: cs) with
    | some (w, rest) => .ph w :: tokenizeF fuel rest
    | none => .chr c :: tokenizeF fuel cs

/-- Tokenization with just enough fuel. -/
def tokenize (l : List Char) : List Tok := tokenizeF l.length l

/-- The verbatim text of a token. -/
def flattenTok : Tok → List Char
  | .chr c => [c]
  | .ph w => phChars w

/-- Rendering one token against mapping `M`: a placeholder becomes its
callback substitution (`substFor`: bound value, else inherited
`Object.prototype` member, else the matched text verbatim); a plain
character stays itself. -/
def renderTok (M : List (String × Json)) : Tok → List Char
  | .chr c => [c]
  | .ph w => substFor M w

/-- A token whose substitution cannot hit the prototype chain: a plain
character, or a placeholder whose key is not an `Object.prototype` name. -/
def Tok.notProto : Tok → Bool
  | .chr _ => true
  | .ph w => !(protoProps.contains (String.mk w))

theorem tokenizeF_fuel : ∀ {f₁ f₂ : Nat} {l : List Char},
    l.length ≤ f₁ → l.length ≤ f₂ → tokenizeF f₁ l = tokenizeF f₂ l := by
  intro f₁
  induction f₁ using Nat.strong_induction_on with
  | _ f₁ ih =>
    intro f₂ l h1 h2
    match f₁, f₂, l with
    | g₁, g₂, [] => cases g₁ <;> cases g₂ <;> rfl
    | 0, _, c :: cs => simp at h1
    | _, 0, c :: cs => simp at h2
    | g₁ + 1, g₂ + 1, c :: cs =>
      simp only [tokenizeF]
      match hm : matchPlaceholder (c :: cs) with
      | some (w, rest) =>
        have hlen := matchPlaceholder_some_length hm
        have hle : rest.length ≤ g₁ ∧ rest.length ≤ g₂ := by
          simp at h1 h2 hlen
          omega
        dsimp only
        rw [ih g₁ (Nat.lt_succ_self _) hle.1 hle.2]
      | none =>
        have hle : cs.length ≤ g₁ ∧ cs.length ≤ g₂ := by
          simp at h1 h2
          omega
        dsimp only
        rw [ih g₁ (Nat.lt_succ_self _) hle.1 hle.2]

theorem tokenize_cons_match {l w rest : List Char}
    (h : matchPlaceholder l = some (w, rest)) :
    tokenize l = .ph w :: tokenize rest := by
  match l, h with
  | [], h => exact Option.noConfusion h
  | c :: cs, h =>
    show tokenizeF (cs.length + 1) (c :: cs) = _
    rw [tokenizeF, h]
    dsimp only
    congr 1
    apply tokenizeF_fuel
    · have := matchPlaceholder_some_length h
      simp at this
      omega
    · exact le_refl _

theorem tokenize_cons_nomatch {c : Char} {cs : List Char}
    (h : matchPlaceholder (c :: cs) = none) :
    tokenize (c :: cs) = .chr c :: tokenize cs := by
  show tokenizeF (cs.length + 1) (c :: cs) = _
  rw [tokenizeF, h]
  rfl

theorem renderScan_eq_tokens (M : List (String × Json)) (l : List Char) :
    renderScan M l = ((tokenize l).map (renderTok M)).flatten := by
  generalize hn : l.length = n
  induction n using Nat.strong_induction_on generalizing l with
  | _ n ih =>
    match l with
    | [] => rfl
    | c :: cs =>
      match hm : matchPlaceholder (c :: cs) with
      | some (w, rest) =>
        have hlen := matchPlaceholder_some_length hm
        rw [renderScan_cons_match M hm, tokenize_cons_match hm]
        simp only [List.map_cons, List.flatten_cons]
        rw [ih rest.length (by omega) rest rfl]
        rfl
      | none =>
        rw [renderScan_cons_nomatch M hm, tokenize_cons_nomatch hm]
        simp only [List.map_cons, List.flatten_cons]
        rw [ih cs.length (by simp at hn; omega) cs rfl]
        rfl

theorem tokenize_flatten (l : List Char) :
    ((tokenize l).map flattenTok).flatten = l := by
  generalize hn : l.length = n
  induction n using Nat.strong_induction_on generalizing l with
  | _ n ih =>
    match l with
    | [] => rfl
    | c :: cs =>
      match hm : matchPlaceholder (c :: cs) with
      | some (w, rest) =>
        have hlen := matchPlaceholder_some_length hm
        obtain ⟨hl, -, -⟩ := matchPlaceholder_sound hm
        rw [tokenize_cons_match hm]
        simp only [List.map_cons, List.flatten_cons]
        rw [ih rest.length (by omega) rest rfl]
        rw [hl]
        rfl
      | none =>
        rw [tokenize_cons_nomatch hm]
        simp only [List.map_cons, List.flatten_cons]
        rw [ih cs.length (by simp at hn; omega) cs rfl]
        rfl

theorem tokenize_wf (l : List Char) :
    ∀ w, Tok.ph w ∈ tokenize l → w ≠ [] ∧ ∀ c ∈ w, isWordChar c := by
  generalize hn : l.length = n
  induction n using Nat.strong_induction_on generalizing l with
  | _ n ih =>
    match l with
    | [] => intro w hw; exact absurd hw (by simp [tokenize, tokenizeF])
    | c :: cs =>
      intro w hw
      match hm : matchPlaceholder (c :: cs) with
      | some (w', rest) =>
        have hlen := matchPlaceholder_some_length hm
        obtain ⟨-, hne, hword⟩ := matchPlaceholder_sound hm
        rw [tokenize_cons_match hm] at hw
        rcases List.mem_cons.mp hw with h | h
        · obtain rfl : w' = w := by injection h.symm
          exact ⟨hne, hword⟩
        · exact ih rest.length (by omega) rest rfl w h
      | none =>
        rw [tokenize_cons_nomatch hm] at hw
        rcases List.mem_cons.mp hw with h | h
        · exact absurd h (by simp)
        · exact ih cs.length (by simp at hn; omega) cs rfl w h

theorem renderScan_empty_map (l : List Char)
    (h : ∀ t ∈ tokenize l, t.notProto = true) : renderScan [] l = l := by
  rw [renderScan_eq_tokens]
  conv_rhs => rw [← tokenize_flatten l]
  congr 1
  apply List.map_congr_left
  intro t ht
  match t with
  | .chr c => rfl
  | .ph w =>
    have hnp := h _ ht
    simp only [Tok.notProto, Bool.not_eq_true'] at hnp
    have hnp' : String.mk w ∉ protoProps := by simpa using hnp
    show substFor [] w = flattenTok (.ph w)
    simp [substFor, flattenTok, hnp']

/-- C3 (amended): `renderTemplate` performs exactly per-occurrence
substitution, with JS property lookup.  The scan decomposes any template
into tokens whose concatenation is the template itself (so everything
outside matched placeholders, and every placeholder token, is
byte-identical source text, and placeholder keys are nonempty
word-character runs), and rendering replaces each placeholder token by its
callback substitution `substFor`: the bound value's `String(·)` image when
the key is a key of `M`, else the inherited `Object.prototype` member's
stringification when the key is one of those names, else the matched text
byte-identical.  The empty mapping (also used for an absent one) returns
the template unchanged provided no placeholder name is an inherited name. -/
theorem renderTemplate_substitutes_exactly (template : String)
    (M : List (String × Json)) :
    renderTemplate template M
      = String.mk (((tokenize template.data).map (renderTok M)).flatten) ∧
    String.mk (((tokenize template.data).map flattenTok).flatten) = template ∧
    (∀ w, Tok.ph w ∈ tokenize template.data → w ≠ [] ∧ ∀ c ∈ w, isWordChar c) ∧
    ((∀ t ∈ tokenize template.data, t.notProto = true) →
      renderTemplate template [] = template) := by
  refine ⟨?_, ?_, tokenize_wf template.data, fun h => ?_⟩
  · rw [renderTemplate, renderScan_eq_tokens]
  · rw [tokenize_flatten]
  · rw [renderTemplate, renderScan_empty_map template.data h]

/-- Witness for C3 on the design-notes template: no placeholder name is an
inherited one, so the empty mapping leaves the template unchanged. -/
theorem renderTemplate_substitutes_exactly_witness :
    (∀ t ∈ tokenize helloTemplate.data, t.notProto = true) ∧
    renderTemplate helloTemplate [] = helloTemplate :=
  ⟨by decide,
    (renderTemplate_substitutes_exactly helloTemplate []).2.2.2 (by decide)⟩

/-- Counterexample to C3 as frozen: `data[key] !== undefined` walks the
prototype chain, so with the **empty** mapping the placeholder
`{{toString}}` — whose name is not a key of the mapping — is still
substituted (with the inherited method's stringification): the output is
not byte-identical to the template and the empty mapping does not return
the input. -/
theorem proto_placeholder_substituted :
    renderTemplate (phString "toString") [] ≠ phString "toString" ∧
    renderTemplate (phString "toString") [] = protoString "toString" :=
  ⟨by decide, by decide⟩

/-! ### Comparing the two renderers (for C4)

The two variants do *not* render identically in general (see
`render_variants_differ`): the webhook loop rescans earlier substitutions
when processing later keys.  They do agree on "clean" inputs: templates
that alternate brace-free literal text with word-character placeholders,
and mapping values whose stringification contains no brace (so no new
placeholder text is injected) and no dollar (so no JavaScript replacement
pattern fires). -/

/-- A template piece: literal text or a placeholder `{{k}}`. -/
inductive Tpl where
  | lit (s : String) : Tpl
  | ph (k : String) : Tpl

/-- The concrete text of a template piece. -/
def tplChars : Tpl → List Char
  | .lit s => s.data
  | .ph k => phChars k.data

/-- The concrete text of a piece list. -/
def tplFlatten (ts : List Tpl) : List Char := (ts.map tplChars).flatten

/-- Text free of both brace characters. -/
def braceFree (l : List Char) : Prop := ∀ c ∈ l, c ≠ lbrace ∧ c ≠ rbrace

/-- A legal placeholder key: nonempty, all word characters. -/
def wordChars (l : List Char) : Prop := l ≠ [] ∧ ∀ c ∈ l, isWordChar c

/-- Well-formedness of a piece: literal chunks carry no braces, placeholder
keys are nonempty word-character runs. -/
def Tpl.wf : Tpl → Prop
  | .lit s => braceFree s.data
  | .ph k => wordChars k.data

theorem isWordChar_ne_braces {c : Char} (h : isWordChar c = true) :
    c ≠ lbrace ∧ c ≠ rbrace := by
  constructor <;> rintro rfl <;> exact absurd h (by decide)

theorem matchPlaceholder_not_lbrace {c : Char} (hc : c ≠ lbrace) (cs : List Char) :
    matchPlaceholder (c :: cs) = none := by
  match cs with
  | [] => rfl
  | d :: ds =>
    simp only [matchPlaceholder]
    rw [if_neg]
    exact fun h => hc h.1

theorem renderScan_append_no_lbrace {s : List Char} (hs : ∀ c ∈ s, c ≠ lbrace)
    (M : List (String × Json)) (r : List Char) :
    renderScan M (s ++ r) = s ++ renderScan M r := by
  induction s with
  | nil => rfl
  | cons c s' ih =>
    have hc : c ≠ lbrace := hs c (by simp)
    rw [List.cons_append, renderScan_cons_nomatch M (matchPlaceholder_not_lbrace hc _)]
    rw [ih fun x hx => hs x (by simp [hx])]
    rfl

theorem takeWhile_word_append : ∀ {k : List Char}, (∀ c ∈ k, isWordChar c) →
    ∀ t : List Char, (k ++ rbrace :: t).takeWhile isWordChar = k := by
  have hrb : isWordChar rbrace = false := by decide
  intro k
  induction k with
  | nil =>
    intro _ t
    simp [List.takeWhile_cons, hrb]
  | cons c k' ih =>
    intro hw t
    have hc := hw c (by simp)
    simp [List.takeWhile_cons, hc, ih (fun x hx => hw x (by simp [hx])) t]

theorem dropWhile_word_append : ∀ {k : List Char}, (∀ c ∈ k, isWordChar c) →
    ∀ t : List Char, (k ++ rbrace :: t).dropWhile isWordChar = rbrace :: t := by
  have hrb : isWordChar rbrace = false := by decide
  intro k
  induction k with
  | nil =>
    intro _ t
    simp [List.dropWhile_cons, hrb]
  | cons c k' ih =>
    intro hw t
    have hc := hw c (by simp)
    simp [List.dropWhile_cons, hc, ih (fun x hx => hw x (by simp [hx])) t]

theorem matchPlaceholder_phChars {k : List Char} (hk : k ≠ [])
    (hw : ∀ c ∈ k, isWordChar c) (r : List Char) :
    matchPlaceholder (phChars k ++ r) = some (k, r) := by
  have hsh : phChars k ++ r = lbrace :: lbrace :: (k ++ rbrace :: rbrace :: r) := by
    simp [phChars]
  have hd : (k ++ rbrace :: rbrace :: r).dropWhile isWordChar = rbrace :: rbrace :: r :=
    dropWhile_word_append hw _
  have ht : (k ++ rbrace :: rbrace :: r).takeWhile isWordChar = k :=
    takeWhile_word_append hw _
  rw [hsh]
  simp [matchPlaceholder, hd, ht, hk]

/-- One-key substitution over every placeholder of a piece list: what the
single-pass renderer does to well-formed templates. -/
def substAllTpl (M : List (String × Json)) : Tpl → Tpl
  | .lit s => .lit s
  | .ph k =>
    match List.lookup k M with
    | some v => .lit (jsToString v)
    | none =>
      if protoProps.contains k then .lit (protoString k) else .ph k

theorem renderScan_flatten (M : List (String × Json)) :
    ∀ ts : List Tpl, (∀ t ∈ ts, Tpl.wf t) →
      renderScan M (tplFlatten ts) = tplFlatten (ts.map (substAllTpl M)) := by
  intro ts
  induction ts with
  | nil => intro _; rfl
  | cons t rest ih =>
    intro hwf
    have hwt : Tpl.wf t := hwf t (by simp)
    have hwr : ∀ x ∈ rest, Tpl.wf x := fun x hx => hwf x (by simp [hx])
    match t with
    | .lit s =>
      have hs : ∀ c ∈ s.data, c ≠ lbrace := fun c hc => (hwt c hc).1
      show renderScan M (s.data ++ tplFlatten rest) = _
      rw [renderScan_append_no_lbrace hs, ih hwr]
      rfl
    | .ph k =>
      obtain ⟨hk, hw⟩ := hwt
      show renderScan M (phChars k.data ++ tplFlatten rest) = _
      rw [renderScan_cons_match M (matchPlaceholder_phChars hk hw _), ih hwr]
      show _ ++ _ = tplChars (substAllTpl M (.ph k)) ++ _
      congr 1
      have hmk : String.mk k.data = k := rfl
      simp only [substAllTpl, substFor, hmk]
      cases List.lookup k M with
      | some v => rfl
      | none =>
        by_cases hp : k ∈ protoProps
        · simp [hp, tplChars]
        · simp [hp, tplChars]

/-! #### Locating `{{k}}` occurrences in well-formed text -/

theorem findSub_cons_neg {pat : List Char} {c : Char} {cs : List Char}
    (h : prefixOf pat (c :: cs) = false) :
    findSub pat (c :: cs) = (findSub pat cs).map (fun pr => (c :: pr.1, pr.2)) := by
  rw [findSub, if_neg (by simp [h])]
  cases hf : findSub pat cs with
  | none => rfl
  | some pr => cases pr; rfl

theorem prefixOf_cons_ne {p0 c : Char} {ps cs : List Char} (h : p0 ≠ c) :
    prefixOf (p0 :: ps) (c :: cs) = false := by
  simp [prefixOf, h]

/-- Skipping a run of characters none of which can start the pattern. -/
theorem findSub_append_no_head {p0 : Char} {ps : List Char} :
    ∀ {s : List Char}, (∀ c ∈ s, c ≠ p0) → ∀ f : List Char,
      findSub (p0 :: ps) (s ++ f)
        = (findSub (p0 :: ps) f).map (fun pr => (s ++ pr.1, pr.2)) := by
  intro s
  induction s with
  | nil =>
    intro _ f
    simp only [List.nil_append]
    cases hf : findSub (p0 :: ps) f with
    | none => rfl
    | some pr => rfl
  | cons c s' ih =>
    intro hs f
    have hc : p0 ≠ c := fun h => (hs c (by simp)) h.symm
    rw [List.cons_append, findSub_cons_neg (prefixOf_cons_ne hc)]
    rw [ih (fun x hx => hs x (by simp [hx])) f]
    cases hf : findSub (p0 :: ps) f with
    | none => rfl
    | some pr => cases pr; rfl

/-- Two distinct word keys followed by a closing brace never align. -/
theorem word_key_align : ∀ {a b : List Char}, (∀ c ∈ a, isWordChar c) →
    (∀ c ∈ b, isWordChar c) → ∀ {t u : List Char},
    prefixOf (a ++ rbrace :: t) (b ++ rbrace :: u) = true → a = b := by
  have hrb : isWordChar rbrace = false := by decide
  intro a
  induction a with
  | nil =>
    intro b _ hb t u h
    match b with
    | [] => rfl
    | c :: b' =>
      have hc := hb c (by simp)
      have : rbrace ≠ c := by
        rintro rfl
        rw [hrb] at hc
        exact Bool.noConfusion hc
      rw [List.nil_append, List.cons_append, prefixOf_cons_ne this] at h
      exact Bool.noConfusion h
  | cons c a' ih =>
    intro b ha hb t u h
    match b with
    | [] =>
      have hc := ha c (by simp)
      have : c ≠ rbrace := by
        rintro rfl
        rw [hrb] at hc
        exact Bool.noConfusion hc
      rw [List.cons_append, List.nil_append, prefixOf_cons_ne this] at h
      exact Bool.noConfusion h
    | d :: b' =>
      rw [List.cons_append, List.cons_append] at h
      simp only [prefixOf, Bool.and_eq_true, decide_eq_true_eq] at h
      obtain ⟨rfl, h⟩ := h
      rw [ih (fun x hx => ha x (by simp [hx])) (fun x hx => hb x (by simp [hx])) h]

/-- The pattern `{{k}}` is not a prefix of `{{k'}}…` when `k ≠ k'`. -/
theorem phChars_prefix_ne {k k' : List Char} (hk : ∀ c ∈ k, isWordChar c)
    (hk' : ∀ c ∈ k', isWordChar c) (hne : k ≠ k') (f : List Char) :
    prefixOf (phChars k) (phChars k' ++ f) = false := by
  by_contra hcon
  have htrue : prefixOf (phChars k) (phChars k' ++ f) = true := by
    cases h : prefixOf (phChars k) (phChars k' ++ f)
    · exact absurd h hcon
    · rfl
  have hsh : phChars k' ++ f = lbrace :: lbrace :: (k' ++ rbrace :: rbrace :: f) := by
    simp [phChars]
  have hsh2 : phChars k = lbrace :: lbrace :: (k ++ rbrace :: (rbrace :: [])) := by
    simp [phChars]
  rw [hsh, hsh2] at htrue
  simp only [prefixOf, Bool.and_eq_true, decide_eq_true_eq] at htrue
  obtain ⟨-, -, htrue⟩ := htrue
  exact hne (word_key_align hk hk' htrue)

/-- The pattern `{{k}}` heads its own text. -/
theorem findSub_phChars_self (k : List Char) (f : List Char) :
    findSub (phChars k) (phChars k ++ f) = some ([], f) := by
  have hne : phChars k ++ f ≠ [] := by simp [phChars]
  match hp : phChars k ++ f, hne with
  | c :: cs, _ =>
    rw [findSub, if_pos]
    · rw [← hp, List.drop_left]
    · rw [← hp]
      exact prefixOf_append _ _

/-- Skipping a whole placeholder `{{k'}}` with `k' ≠ k`. -/
theorem findSub_ph_skip {k k' : List Char} (hk : ∀ c ∈ k, isWordChar c)
    (hk' : wordChars k') (hne : k ≠ k') (f : List Char) :
    findSub (phChars k) (phChars k' ++ f)
      = (findSub (phChars k) f).map (fun pr => (phChars k' ++ pr.1, pr.2)) := by
  obtain ⟨hk'ne, hk'w⟩ := hk'
  have hskip : ∀ (s g : List Char), (∀ c ∈ s, c ≠ lbrace) →
      findSub (phChars k) (s ++ g)
        = (findSub (phChars k) g).map (fun pr => (s ++ pr.1, pr.2)) :=
    fun s g hs =>
      @findSub_append_no_head lbrace (lbrace :: (k ++ [rbrace, rbrace])) s hs g
  have h0 : prefixOf (phChars k) (phChars k' ++ f) = false :=
    phChars_prefix_ne hk hk'w hne f
  have h1 : prefixOf (phChars k) (lbrace :: (k' ++ rbrace :: rbrace :: f)) = false := by
    obtain ⟨e, k'', rfl⟩ : ∃ e k'', k' = e :: k'' := by
      cases k' with
      | nil => exact absurd rfl hk'ne
      | cons e k'' => exact ⟨e, k'', rfl⟩
    have he := hk'w e (by simp)
    have hle : lbrace ≠ e := by
      rintro rfl
      exact absurd he (by decide)
    have hph : phChars k = lbrace :: lbrace :: (k ++ [rbrace, rbrace]) := rfl
    rw [hph, List.cons_append]
    simp [prefixOf, hle]
  have hrbne : ∀ c ∈ [rbrace, rbrace], c ≠ lbrace := by
    intro c hc
    rcases List.mem_cons.mp hc with rfl | hc
    · decide
    · rcases List.mem_cons.mp hc with rfl | hc
      · decide
      · exact absurd hc (List.not_mem_nil c)
  have hkne : ∀ c ∈ k', c ≠ lbrace := fun c hc =>
    (isWordChar_ne_braces (hk'w c hc)).1
  have hsh : phChars k' ++ f = lbrace :: lbrace :: (k' ++ rbrace :: rbrace :: f) := by
    simp [phChars]
  have h0' : prefixOf (phChars k) (lbrace :: lbrace :: (k' ++ rbrace :: rbrace :: f))
      = false := hsh ▸ h0
  have hA : findSub (phChars k) (lbrace :: (lbrace :: (k' ++ rbrace :: rbrace :: f)))
      = (findSub (phChars k) (lbrace :: (k' ++ rbrace :: rbrace :: f))).map
          (fun pr => (lbrace :: pr.1, pr.2)) :=
    findSub_cons_neg h0'
  have hB : findSub (phChars k) (lbrace :: (k' ++ rbrace :: rbrace :: f))
      = (findSub (phChars k) (k' ++ rbrace :: rbrace :: f)).map
          (fun pr => (lbrace :: pr.1, pr.2)) :=
    findSub_cons_neg h1
  have hC : findSub (phChars k) (k' ++ rbrace :: rbrace :: f)
      = (findSub (phChars k) (rbrace :: rbrace :: f)).map
          (fun pr => (k' ++ pr.1, pr.2)) :=
    hskip k' _ hkne
  have hD : findSub (phChars k) (rbrace :: rbrace :: f)
      = (findSub (phChars k) f).map (fun pr => (rbrace :: rbrace :: pr.1, pr.2)) :=
    hskip [rbrace, rbrace] f hrbne
  rw [hsh, hA, hB, hC, hD]
  cases hf : findSub (phChars k) f with
  | none => rfl
  | some pr =>
    cases pr
    simp [phChars]

/-! #### One global replace over a well-formed template -/

/-- Substitution of a single key `k` by text `v` in every placeholder
`{{k}}` of a piece list: what one iteration of the webhook loop does to
well-formed text. -/
def substOneTpl (k v : String) : Tpl → Tpl
  | .lit s => .lit s
  | .ph k' => if k' = k then .lit v else .ph k'

theorem tplFlatten_cons (t : Tpl) (ts : List Tpl) :
    tplFlatten (t :: ts) = tplChars t ++ tplFlatten ts := rfl

theorem replaceAllCore_distrib {k : List Char} (v done : List Char)
    {s f : List Char}
    (hskip : findSub (phChars k) (s ++ f)
      = (findSub (phChars k) f).map (fun pr => (s ++ pr.1, pr.2))) :
    replaceAllCore lbrace (lbrace :: (k ++ [rbrace, rbrace])) v done (s ++ f)
      = s ++ replaceAllCore lbrace (lbrace :: (k ++ [rbrace, rbrace])) v (done ++ s) f := by
  cases hf : findSub (phChars k) f with
  | none =>
    rw [hf] at hskip
    rw [replaceAllCore_none v done hskip, replaceAllCore_none v (done ++ s) hf]
  | some pr =>
    obtain ⟨pre, post⟩ := pr
    rw [hf] at hskip
    rw [replaceAllCore_some v done hskip, replaceAllCore_some v (done ++ s) hf]
    simp [List.append_assoc]

theorem replaceAllCore_at_match {k : List Char} (v done f : List Char)
    (hv : ∀ c ∈ v, c ≠ dollar) :
    replaceAllCore lbrace (lbrace :: (k ++ [rbrace, rbrace])) v done (phChars k ++ f)
      = v ++ replaceAllCore lbrace (lbrace :: (k ++ [rbrace, rbrace])) v
          (done ++ phChars k) f := by
  have hself : findSub (lbrace :: (lbrace :: (k ++ [rbrace, rbrace])))
      (phChars k ++ f) = some ([], f) := findSub_phChars_self k f
  rw [replaceAllCore_some v done hself]
  rw [expandDollar_of_no_dollar hv]
  simp [phChars]

theorem replaceAll_flatten (k v : String) (hk : wordChars k.data)
    (hv : ∀ c ∈ v.data, c ≠ dollar) :
    ∀ (ts : List Tpl), (∀ t ∈ ts, Tpl.wf t) → ∀ done : List Char,
      replaceAllCore lbrace (lbrace :: (k.data ++ [rbrace, rbrace])) v.data done
          (tplFlatten ts)
        = tplFlatten (ts.map (substOneTpl k v)) := by
  intro ts
  induction ts with
  | nil => intro _ _; rfl
  | cons t rest ih =>
    intro hwf done
    have hwt : Tpl.wf t := hwf t (by simp)
    have hwr : ∀ x ∈ rest, Tpl.wf x := fun x hx => hwf x (by simp [hx])
    match t with
    | .lit s =>
      have hs : ∀ c ∈ s.data, c ≠ lbrace := fun c hc => (hwt c hc).1
      rw [tplFlatten_cons]
      show replaceAllCore _ _ _ _ (s.data ++ tplFlatten rest) = _
      rw [replaceAllCore_distrib v.data done
        (@findSub_append_no_head lbrace (lbrace :: (k.data ++ [rbrace, rbrace]))
          s.data hs (tplFlatten rest))]
      rw [ih hwr (done ++ s.data)]
      rfl
    | .ph k' =>
      rw [tplFlatten_cons]
      show replaceAllCore _ _ _ _ (phChars k'.data ++ tplFlatten rest) = _
      by_cases hkk : k' = k
      · subst hkk
        rw [replaceAllCore_at_match v.data done (tplFlatten rest) hv]
        rw [ih hwr (done ++ phChars k'.data)]
        simp only [List.map_cons, tplFlatten_cons, substOneTpl, if_pos rfl]
        rfl
      · have hkd : k.data ≠ k'.data := by
          intro h
          apply hkk
          cases k; cases k'
          exact congrArg String.mk h.symm
        rw [replaceAllCore_distrib v.data done
          (findSub_ph_skip hk.2 hwt hkd (tplFlatten rest))]
        rw [ih hwr (done ++ phChars k'.data)]
        simp only [List.map_cons, tplFlatten_cons, substOneTpl, if_neg hkk]
        rfl

/-! #### The whole webhook loop over a well-formed template -/

/-- Sequential substitution of every payload entry, in order, on one piece. -/
def substSeqTpl (payload : List (String × Json)) (t : Tpl) : Tpl :=
  payload.foldl (fun acc kv => substOneTpl kv.1 (jsToString kv.2) acc) t

theorem substOneTpl_wf {k v : String} (hv : braceFree v.data) :
    ∀ {t : Tpl}, Tpl.wf t → Tpl.wf (substOneTpl k v t) := by
  intro t hwt
  match t with
  | .lit s => exact hwt
  | .ph k' =>
    by_cases hkk : k' = k
    · simpa [substOneTpl, hkk] using hv
    · simpa [substOneTpl, hkk] using hwt

theorem replaceAll_ph (s k v : String) :
    replaceAll s (phString k) v
      = String.mk (replaceAllCore lbrace (lbrace :: (k.data ++ [rbrace, rbrace]))
          v.data [] s.data) := rfl

theorem webhookRender_flatten :
    ∀ (payload : List (String × Json)),
      (∀ kv ∈ payload, wordChars kv.1.data) →
      (∀ kv ∈ payload, ∀ c ∈ (jsToString kv.2).data,
        c ≠ lbrace ∧ c ≠ rbrace ∧ c ≠ dollar) →
      ∀ ts : List Tpl, (∀ t ∈ ts, Tpl.wf t) →
        webhookRender (String.mk (tplFlatten ts)) payload
          = String.mk (tplFlatten (ts.map (substSeqTpl payload))) := by
  intro payload
  induction payload with
  | nil =>
    intro _ _ ts _
    show String.mk (tplFlatten ts) = _
    congr 1
    have : ts.map (substSeqTpl []) = ts.map id := rfl
    rw [this, List.map_id]
  | cons kv rest ih =>
    intro hkeys hvals ts hwf
    obtain ⟨k, val⟩ := kv
    have hk : wordChars k.data := hkeys (k, val) (by simp)
    have hval := hvals (k, val) (by simp)
    have hvd : ∀ c ∈ (jsToString val).data, c ≠ dollar := fun c hc => (hval c hc).2.2
    have hvb : braceFree (jsToString val).data := fun c hc =>
      ⟨(hval c hc).1, (hval c hc).2.1⟩
    show webhookRender (replaceAll (String.mk (tplFlatten ts)) (phString k)
        (jsToString val)) rest = _
    rw [replaceAll_ph]
    have hcore := replaceAll_flatten k (jsToString val) hk hvd ts hwf []
    show webhookRender (String.mk (replaceAllCore lbrace
        (lbrace :: (k.data ++ [rbrace, rbrace])) (jsToString val).data []
        (tplFlatten ts))) rest = _
    rw [hcore]
    rw [ih (fun x hx => hkeys x (by simp [hx])) (fun x hx => hvals x (by simp [hx]))
      (ts.map (substOneTpl k (jsToString val)))
      (fun t ht => by
        obtain ⟨t₀, ht₀, rfl⟩ := List.mem_map.mp ht
        exact substOneTpl_wf hvb (hwf t₀ ht₀))]
    rw [List.map_map]
    rfl

theorem substSeqTpl_lit (payload : List (String × Json)) (s : String) :
    substSeqTpl payload (.lit s) = .lit s := by
  induction payload with
  | nil => rfl
  | cons kv rest ih => exact ih

theorem substSeqTpl_ph (payload : List (String × Json)) (k : String) :
    substSeqTpl payload (.ph k)
      = match List.lookup k payload with
        | some v => .lit (jsToString v)
        | none => .ph k := by
  induction payload with
  | nil => rfl
  | cons kv rest ih =>
    obtain ⟨k₁, v₁⟩ := kv
    show substSeqTpl rest (substOneTpl k₁ (jsToString v₁) (.ph k)) = _
    by_cases hkk : k = k₁
    · subst hkk
      show substSeqTpl rest (if k = k then .lit (jsToString v₁) else .ph k) = _
      rw [if_pos rfl, substSeqTpl_lit]
      simp [List.lookup]
    · show substSeqTpl rest (if k = k₁ then .lit (jsToString v₁) else .ph k) = _
      rw [if_neg hkk, ih]
      have : (k == k₁) = false := by
        simp [hkk]
      simp [List.lookup, this]

theorem litKey_wordChars {k : String} (h : litKey k = true) : wordChars k.data := by
  simp only [litKey, Bool.and_eq_true, Bool.not_eq_true'] at h
  obtain ⟨⟨h1, h2⟩, -⟩ := h
  refine ⟨?_, List.all_eq_true.mp h2⟩
  intro he
  rw [he] at h1
  exact Bool.noConfusion h1

/-- C4 (amended): the two entry points also differ in how they render —
the manual variant makes one left-to-right pass whose lookup walks the
prototype chain, the webhook variant runs one full sequential global
replace per payload key, which can rescan earlier substitutions (see
`render_variants_differ`).  The two renderings do coincide on clean
inputs: a template alternating brace-free literal text with word-character
placeholders, none of whose placeholder names is an unbound
`Object.prototype` name (those the manual pass substitutes and the webhook
loop cannot see), and payload entries whose keys are `litKey` (so the
dynamically built regex is the literal text `{{key}}` and the loop neither
throws nor mismatches) and whose stringified values contain no brace and
no dollar character. -/
theorem render_variants_agree_on_clean_inputs (ts : List Tpl)
    (payload : List (String × Json)) (hwf : ∀ t ∈ ts, Tpl.wf t)
    (hkeys : ∀ kv ∈ payload, litKey kv.1 = true)
    (hproto : ∀ k, Tpl.ph k ∈ ts →
      (List.lookup k payload).isSome = true ∨ protoProps.contains k = false)
    (hvals : ∀ kv ∈ payload, ∀ c ∈ (jsToString kv.2).data,
      c ≠ lbrace ∧ c ≠ rbrace ∧ c ≠ dollar) :
    webhookRender (String.mk (tplFlatten ts)) payload
      = renderTemplate (String.mk (tplFlatten ts)) payload := by
  rw [webhookRender_flatten payload
    (fun kv hkv => litKey_wordChars (hkeys kv hkv)) hvals ts hwf]
  show _ = String.mk (renderScan payload (tplFlatten ts))
  rw [renderScan_flatten payload ts hwf]
  congr 1
  unfold tplFlatten
  rw [List.map_map, List.map_map]
  apply congrArg List.flatten
  apply List.map_congr_left
  intro t ht
  show tplChars (substSeqTpl payload t) = tplChars (substAllTpl payload t)
  match t with
  | .lit s => rw [substSeqTpl_lit]; rfl
  | .ph k =>
    rw [substSeqTpl_ph]
    cases hl : List.lookup k payload with
    | some v => simp [substAllTpl, hl]
    | none =>
      have hnp : protoProps.contains k = false := by
        rcases hproto k ht with h | h
        · rw [hl] at h
          exact Bool.noConfusion h
        · exact h
      have hnp' : k ∉ protoProps := by simpa using hnp
      simp [substAllTpl, hl, hnp']

/-- Witness for C4's agreement statement on the design-notes example. -/
theorem render_variants_agree_witness :
    webhookRender (String.mk (tplFlatten
        [.lit "Hello ", .ph "name", .lit ", how are you?"])) [("name", .str "John")]
      = renderTemplate (String.mk (tplFlatten
        [.lit "Hello ", .ph "name", .lit ", how are you?"])) [("name", .str "John")] :=
  render_variants_agree_on_clean_inputs
    [.lit "Hello ", .ph "name", .lit ", how are you?"] [("name", .str "John")]
    (by intro t ht; fin_cases ht <;> simp [Tpl.wf, braceFree, wordChars] <;> decide)
    (by intro kv hkv; fin_cases hkv; decide)
    (by intro k hk
        simp only [List.mem_cons, List.not_mem_nil, or_false] at hk
        rcases hk with hk | hk | hk
        · exact absurd hk (by simp)
        · obtain rfl : k = "name" := by injection hk
          decide
        · exact absurd hk (by simp))
    (by intro kv hkv; fin_cases hkv
        intro c hc
        fin_cases hc <;> refine ⟨by decide, by decide, by decide⟩)

/-- Counterexample to C4 as stated: the rendered prompt text of the two
variants differs in general.  With template `{{a}}` and data
`a ↦ "{{b}}", b ↦ "X"`, the manual variant records `{{b}}` (a single pass,
no rescanning) while the webhook variant records `X` (its second loop
iteration rewrites the text injected by the first). -/
theorem render_variants_differ :
    (executePromptT (repoOne (activePrompt (phString "a")))
        { prompt_id := 1,
          template_data := some [("a", .str (phString "b")), ("b", .str "X")] }
        (.ok 200 (okBody "hi")) (.response 200 "OK")).1.toOption.map
      ExecutionRecord.rendered_prompt = some (phString "b") ∧
    (webhookExecutionT (repoOne (activePrompt (phString "a")))
        { prompt_id := 1, payload := [("a", .str (phString "b")), ("b", .str "X")] }
        (.ok 200 (okBody "hi")) (.response 200 "OK")).1.toOption.map
      ExecutionRecord.rendered_prompt = some "X" ∧
    (phString "b" : String) ≠ "X" :=
  ⟨by decide, by decide, by decide⟩
